import Mathlib

/-
Verification development for the Osiris callback bridge
(OsirisCallbackManager / PendingCallbackManager, CoreLib/Base/BaseUtilities.h).

The stateful C++ classes are shallowly embedded as Lean structures with
explicit state passing.  The two std::unordered_multimap registries are
modelled as insertion-ordered association lists: insertion appends, and
equal_range returns the mapped values of all entries with the given key in
insertion order (the target STL keeps elements with equivalent keys grouped
and preserves their relative insertion order).  Opaque engine-side values
(RegistryEntry handler references) are modelled as plain natural-number tags;
the engine symbol table (LookupOsiFunction) is modelled as a function
parameter, since it is an external collaborator of this core.
-/

set_option autoImplicit false

namespace OsiBridge

/-- Trigger phase of a subscription (OsirisHookSignature::HookType). -/
inductive HookType
  | BeforeTrigger
  | AfterTrigger
  | BeforeDeleteTrigger
  | AfterDeleteTrigger
deriving DecidableEq, Repr

/-- Symbol kinds recognised by the engine symbol table (FunctionType).
`Unknown` stands for any other kind. -/
inductive FunctionType
  | Event
  | Query
  | Call
  | Database
  | Proc
  | UserQuery
  | Unknown
deriving DecidableEq, Repr

/-- Subscription signature: (name, arity, trigger phase) (OsirisHookSignature). -/
structure OsirisHookSignature where
  name : String
  arity : Nat
  type : HookType
deriving DecidableEq, Repr

/-- A resolved engine symbol descriptor (Function).  `node = some id` models
`Node.Get() != nullptr` with `Node.Id = id`; `node = none` models a null
node pointer. -/
structure OsiFunctionDef where
  type : FunctionType
  osiFunctionId : Nat
  node : Option Nat
deriving DecidableEq, Repr

/-- The engine symbol table collaborator: resolve (name, arity) to a symbol
descriptor or not-found (LookupOsiFunction). -/
abbrev SymbolTable := String → Nat → Option OsiFunctionDef

/-- Effects performed by each Lua handler when invoked, restricted to the
mutation entry point this core exposes to handlers: a list of Subscribe
calls (signature and opaque handler tag). -/
abbrev HandlerEffects := Nat → List (OsirisHookSignature × Nat)

/-- Modelled from the spec: reserved high phase bit marking an after-trigger
node reference (AfterTriggerNodeRef; the constant values live outside the
provided sources, the spec only fixes that they are distinct reserved high
bits). -/
def AfterTriggerNodeRef : Nat := 2 ^ 63

/-- Modelled from the spec: reserved high phase bit marking a delete-trigger
node reference (DeleteTriggerNodeRef). -/
def DeleteTriggerNodeRef : Nat := 2 ^ 62

/-- Modelled from the spec: reserved high phase bit marking a before-function
reference (BeforeFunctionRef). -/
def BeforeFunctionRef : Nat := 2 ^ 61

/-- Modelled from the spec: reserved high phase bit marking an after-function
reference (AfterFunctionRef). -/
def AfterFunctionRef : Nat := 2 ^ 60

/-- First stage of RegisterNodeHandler: look up the symbol, and re-look-up
under the decorated name when the symbol is a user query (QRY), since user
queries are not themselves hookable. -/
def lookupResolved (table : SymbolTable) (sig : OsirisHookSignature) : Option OsiFunctionDef :=
  match table sig.name sig.arity with
  | none => none
  | some f =>
    if f.type = FunctionType.UserQuery then
      table (sig.name ++ "__DEF__") sig.arity
    else
      some f

/-- The rejection condition of RegisterNodeHandler: symbols that are not
mapped to a node cannot be hooked (except events and calls), and the kind
must be one of event, query, call, DB, PROC or QRY. -/
def rejectKind (f : OsiFunctionDef) : Bool :=
  (f.type != FunctionType.Event && f.type != FunctionType.Call && f.node == none)
  || (f.type != FunctionType.Event
      && f.type != FunctionType.Query
      && f.type != FunctionType.Call
      && f.type != FunctionType.UserQuery
      && f.type != FunctionType.Database
      && f.type != FunctionType.Proc)

/-- Node reference computation of RegisterNodeHandler: event/call symbols use
the function id with the before/after function bit (delete phases are
rejected there); node-backed symbols use the node id with the after bit for
After/AfterDelete and the delete bit for BeforeDelete/AfterDelete. -/
def computeNodeRef (f : OsiFunctionDef) (t : HookType) : Option Nat :=
  if f.type = FunctionType.Event || f.type = FunctionType.Call then
    if t = HookType.BeforeTrigger then
      some (f.osiFunctionId ||| BeforeFunctionRef)
    else if t = HookType.AfterTrigger then
      some (f.osiFunctionId ||| AfterFunctionRef)
    else
      none
  else
    let base := f.node.getD 0
    let r1 := if t = HookType.AfterTrigger || t = HookType.AfterDeleteTrigger then
      base ||| AfterTriggerNodeRef else base
    let r2 := if t = HookType.BeforeDeleteTrigger || t = HookType.AfterDeleteTrigger then
      r1 ||| DeleteTriggerNodeRef else r1
    some r2

/-- Net effect of one RegisterNodeHandler call on the node-based map: the
(nodeRef, handlerId) entry it inserts, or nothing when resolution is
rejected (each early return of the source produces the empty list). -/
def regEntries (table : SymbolTable) (sig : OsirisHookSignature) (handlerId : Nat) :
    List (Nat × Nat) :=
  match lookupResolved table sig with
  | none => []
  | some f =>
    if rejectKind f then []
    else
      match computeNodeRef f sig.type with
      | none => []
      | some r => [(r, handlerId)]

/-- PendingCallbackManager: a depth-indexed pool of reusable snapshot
buffers.  `cache` holds the contents of each pooled buffer (slot index
stands for the stable buffer pointer identity), `depth` the nesting depth. -/
structure PendingCallbackManager where
  cache : List (List Nat)
  depth : Nat
deriving DecidableEq, Repr

/-- PendingCallbackManager::Enter: allocate a buffer for this depth when the
pool has none, clear the buffer at the current depth and copy the matched
handler indices into it, increment depth, and return the buffer (modelled by
its slot index, which stands for the returned pointer). -/
def PendingCallbackManager.Enter (pcm : PendingCallbackManager) (range : List Nat) :
    PendingCallbackManager × Nat :=
  let cache0 := if pcm.cache.length ≤ pcm.depth then pcm.cache ++ [[]] else pcm.cache
  let cache1 := cache0.set pcm.depth range
  (⟨cache1, pcm.depth + 1⟩, pcm.depth)

/-- The assertion of PendingCallbackManager::Exit: depth is positive and the
handed-back buffer is exactly the one entered at depth - 1 (pointer equality
of pooled buffers is slot-index equality). -/
def PendingCallbackManager.ExitAssert (pcm : PendingCallbackManager) (v : Nat) : Prop :=
  pcm.depth > 0 ∧ v = pcm.depth - 1

instance (pcm : PendingCallbackManager) (v : Nat) : Decidable (pcm.ExitAssert v) := by
  unfold PendingCallbackManager.ExitAssert
  infer_instance

/-- PendingCallbackManager::Exit: decrement depth (the assertion itself is
side-effect free and is modelled separately as ExitAssert). -/
def PendingCallbackManager.Exit (pcm : PendingCallbackManager) (v : Nat) :
    PendingCallbackManager :=
  let _ := v
  { pcm with depth := pcm.depth - 1 }

/-- State of OsirisCallbackManager.  `hookInstalls` counts the external
HookNodeVMTs installations and `boundManager` records whether the manager is
bound as the engine callback sink; both are observables of the external
hooking collaborator. -/
structure OsirisCallbackManager where
  nameSubscriberRefs : List (OsirisHookSignature × Nat)
  nodeSubscriberRefs : List (Nat × Nat)
  subscribers : List Nat
  pendingCallbacks : PendingCallbackManager
  storyLoaded : Bool
  merging : Bool
  osirisHooked : Bool
  hookInstalls : Nat
  boundManager : Bool
deriving Repr

/-- OsirisCallbackManager::HookOsiris: no-op when already hooked; otherwise
install the node VMT hooks, bind this manager as the callback sink, and set
the latch. -/
def OsirisCallbackManager.HookOsiris (s : OsirisCallbackManager) : OsirisCallbackManager :=
  if s.osirisHooked then s
  else
    { s with
      osirisHooked := true
      hookInstalls := s.hookInstalls + 1
      boundManager := true }

/-- OsirisCallbackManager::RegisterNodeHandler: resolve the signature and
insert the computed (nodeRef, handlerId) pair into the node-based map, or
warn and change nothing when resolution is rejected. -/
def OsirisCallbackManager.RegisterNodeHandler (s : OsirisCallbackManager)
    (table : SymbolTable) (sig : OsirisHookSignature) (handlerId : Nat) :
    OsirisCallbackManager :=
  { s with nodeSubscriberRefs := s.nodeSubscriberRefs ++ regEntries table sig handlerId }

/-- OsirisCallbackManager::Subscribe: insert (sig, subscribers_.size()) into
the name-based map, append the handler, and when the story is already
loaded, hook Osiris and immediately register the node handler. -/
def OsirisCallbackManager.Subscribe (s : OsirisCallbackManager) (table : SymbolTable)
    (sig : OsirisHookSignature) (handler : Nat) : OsirisCallbackManager :=
  let idx := s.subscribers.length
  let s1 := { s with
    nameSubscriberRefs := s.nameSubscriberRefs ++ [(sig, idx)]
    subscribers := s.subscribers ++ [handler] }
  if s1.storyLoaded then
    (s1.HookOsiris).RegisterNodeHandler table sig idx
  else
    s1

/-- OsirisCallbackManager::StoryLoaded: hook Osiris, set the story-loaded
flag, clear the node-based map and re-register every name-based entry. -/
def OsirisCallbackManager.StoryLoaded (s : OsirisCallbackManager) (table : SymbolTable) :
    OsirisCallbackManager :=
  let s1 := s.HookOsiris
  let s2 := { s1 with storyLoaded := true, nodeSubscriberRefs := [] }
  s2.nameSubscriberRefs.foldl (fun st p => st.RegisterNodeHandler table p.1 p.2) s2

/-- OsirisCallbackManager::StorySetMerging: set the merging flag. -/
def OsirisCallbackManager.StorySetMerging (s : OsirisCallbackManager) (isMerging : Bool) :
    OsirisCallbackManager :=
  { s with merging := isMerging }

/-- equal_range of the node-based multimap: the handler indices of all
entries with the given node reference, in insertion order. -/
def equalRange (m : List (Nat × Nat)) (k : Nat) : List Nat :=
  (m.filter (fun p => p.1 == k)).map Prod.snd

/-- Invoking one handler: the handler runs in the embedded runtime and may
call Subscribe; its state effect is the sequence of Subscribe calls it
performs. -/
def invokeEffects (table : SymbolTable) (eff : HandlerEffects)
    (s : OsirisCallbackManager) (idx : Nat) : OsirisCallbackManager :=
  (eff idx).foldl (fun st p => st.Subscribe table p.1 p.2) s

/-- Common body of both RunHandlers overloads: find the subscriber range for
the node reference (return when empty), pin the Lua runtime (skip dispatch
when unavailable), snapshot the range through the pending-callback buffer,
invoke each snapshotted handler, and exit the buffer.  Returns the new state
and the list of handler indices invoked, in invocation order. -/
def OsirisCallbackManager.RunHandlersCore (s : OsirisCallbackManager) (table : SymbolTable)
    (eff : HandlerEffects) (luaAvailable : Bool) (nodeRef : Nat) :
    OsirisCallbackManager × List Nat :=
  let range := equalRange s.nodeSubscriberRefs nodeRef
  if range.isEmpty then (s, [])
  else if luaAvailable then
    let e := s.pendingCallbacks.Enter range
    let s1 := { s with pendingCallbacks := e.1 }
    let s2 := range.foldl (fun st idx => invokeEffects table eff st idx) s1
    ({ s2 with pendingCallbacks := s2.pendingCallbacks.Exit e.2 }, range)
  else (s, [])

/-- OsirisCallbackManager::RunHandlers(uint64_t, TuplePtrLL*): returns
immediately when the merging flag is set, otherwise dispatches. -/
def OsirisCallbackManager.RunHandlersTuple (s : OsirisCallbackManager) (table : SymbolTable)
    (eff : HandlerEffects) (luaAvailable : Bool) (nodeRef : Nat) :
    OsirisCallbackManager × List Nat :=
  if s.merging then (s, [])
  else s.RunHandlersCore table eff luaAvailable nodeRef

/-- OsirisCallbackManager::RunHandlers(uint64_t, OsiArgumentDesc*): dispatches
unconditionally (this overload has no merging-flag check). -/
def OsirisCallbackManager.RunHandlersArgs (s : OsirisCallbackManager) (table : SymbolTable)
    (eff : HandlerEffects) (luaAvailable : Bool) (nodeRef : Nat) :
    OsirisCallbackManager × List Nat :=
  s.RunHandlersCore table eff luaAvailable nodeRef

/-- OsirisCallbackManager::CallQueryPostHook: fires the node id with the
after-trigger bit through the argument-descriptor dispatch path; the
`succeeded` parameter is part of the hook signature. -/
def OsirisCallbackManager.CallQueryPostHook (s : OsirisCallbackManager) (table : SymbolTable)
    (eff : HandlerEffects) (luaAvailable : Bool) (nodeId : Nat) (succeeded : Bool) :
    OsirisCallbackManager × List Nat :=
  let _ := succeeded
  s.RunHandlersArgs table eff luaAvailable (nodeId ||| AfterTriggerNodeRef)

/-- OsirisCallbackManager::CallPostHook: fires the function id with the
after-function bit through the argument-descriptor dispatch path; the
`succeeded` parameter is part of the hook signature. -/
def OsirisCallbackManager.CallPostHook (s : OsirisCallbackManager) (table : SymbolTable)
    (eff : HandlerEffects) (luaAvailable : Bool) (functionId : Nat) (succeeded : Bool) :
    OsirisCallbackManager × List Nat :=
  let _ := succeeded
  s.RunHandlersArgs table eff luaAvailable (functionId ||| AfterFunctionRef)

/-- Exit path taken by one RunHandler invocation: the protected call
succeeds, the protected call reports a script-level error (one error value
left on the stack), or a native exception escapes after `pushed` values were
pushed inside the try block. -/
inductive HandlerOutcome
  | success
  | scriptError
  | nativeFault (pushed : Nat)
deriving DecidableEq, Repr

/-- Lua stack-depth trace of OsirisCallbackManager::RunHandler (both
overloads share this logic): record the pre-call depth, push the function and
`numArgs` arguments, run the protected call (which pops function and
arguments and pushes no results on success, or one error value that is then
popped on a script error); when a native exception escapes, pop every value
remaining above the pre-call depth.  Returns the stack depth on return. -/
def RunHandlerStackDepth (numArgs : Nat) (outcome : HandlerOutcome) (depth : Nat) : Nat :=
  let stackSize := depth
  match outcome with
  | HandlerOutcome.success =>
    (stackSize + 1 + numArgs) - (1 + numArgs)
  | HandlerOutcome.scriptError =>
    ((stackSize + 1 + numArgs) - (1 + numArgs) + 1) - 1
  | HandlerOutcome.nativeFault pushed =>
    let atCatch := stackSize + pushed
    let stackRemaining := atCatch - stackSize
    if stackRemaining > 0 then atCatch - stackRemaining else atCatch

/-- Every handler index stored in either registry map is a valid index into
the append-only subscribers list. -/
def validIndices (s : OsirisCallbackManager) : Prop :=
  (∀ p ∈ s.nameSubscriberRefs, p.2 < s.subscribers.length)
  ∧ (∀ p ∈ s.nodeSubscriberRefs, p.2 < s.subscribers.length)

instance (s : OsirisCallbackManager) : Decidable (validIndices s) := by
  unfold validIndices
  infer_instance

/-- The trivial symbol table in which no symbol resolves. -/
def emptyTable : SymbolTable := fun _ _ => none

/-- Handler effects for handlers that perform no Subscribe calls. -/
def noEffects : HandlerEffects := fun _ => []

/-- A fresh manager state: empty registries, story not loaded, not merging,
nothing hooked. -/
def initMgr : OsirisCallbackManager :=
  { nameSubscriberRefs := []
    nodeSubscriberRefs := []
    subscribers := []
    pendingCallbacks := ⟨[], 0⟩
    storyLoaded := false
    merging := false
    osirisHooked := false
    hookInstalls := 0
    boundManager := false }

/-- A concrete symbol table with a single event symbol TestEvent/2. -/
def tableEv : SymbolTable := fun n a =>
  if n = "TestEvent" ∧ a = 2 then some ⟨FunctionType.Event, 42, none⟩ else none

/-- A delete-phase subscription signature on the TestEvent event symbol. -/
def sigEvDel : OsirisHookSignature := ⟨"TestEvent", 2, HookType.AfterDeleteTrigger⟩

/-- Concrete state used for the merging-gate analysis: a single subscriber
(handler index 0) registered under node reference 5, with merging set. -/
def mergingMgr : OsirisCallbackManager :=
  { nameSubscriberRefs := []
    nodeSubscriberRefs := [(5, 0)]
    subscribers := [77]
    pendingCallbacks := ⟨[], 0⟩
    storyLoaded := true
    merging := true
    osirisHooked := true
    hookInstalls := 1
    boundManager := true }

/-- A Before-phase subscription signature on the TestEvent event symbol. -/
def sigEvBefore : OsirisHookSignature := ⟨"TestEvent", 2, HookType.BeforeTrigger⟩

/-- The fresh manager state after the story graph has been loaded. -/
def loadedMgr : OsirisCallbackManager := { initMgr with storyLoaded := true }

/-- Handler effects where every handler, when invoked, subscribes one
further handler on the TestEvent Before signature. -/
def reentrantEff : HandlerEffects := fun _ => [(sigEvBefore, 21)]

/-- A loaded state with one subscriber on the TestEvent Before reference. -/
def oneSubMgr : OsirisCallbackManager := loadedMgr.Subscribe tableEv sigEvBefore 20

/-- Relation between a dispatch-entry state and any state reachable from it
by handler-performed Subscribe calls during that dispatch: the subscriber
list only grows, the merging and story-loaded flags are untouched, and the
node-based map only gains entries whose handler indices refer to handlers
appended after dispatch entry. -/
def ExtendsFrom (s st : OsirisCallbackManager) : Prop :=
  s.subscribers.length ≤ st.subscribers.length
  ∧ st.merging = s.merging
  ∧ st.storyLoaded = s.storyLoaded
  ∧ ∃ t, st.nodeSubscriberRefs = s.nodeSubscriberRefs ++ t
      ∧ ∀ p ∈ t, s.subscribers.length ≤ p.2


theorem HookOsiris_nodeRefs (s : OsirisCallbackManager) :
    (s.HookOsiris).nodeSubscriberRefs = s.nodeSubscriberRefs := by
  unfold OsirisCallbackManager.HookOsiris
  split <;> rfl

theorem HookOsiris_nameRefs (s : OsirisCallbackManager) :
    (s.HookOsiris).nameSubscriberRefs = s.nameSubscriberRefs := by
  unfold OsirisCallbackManager.HookOsiris
  split <;> rfl

theorem HookOsiris_subscribers (s : OsirisCallbackManager) :
    (s.HookOsiris).subscribers = s.subscribers := by
  unfold OsirisCallbackManager.HookOsiris
  split <;> rfl

theorem HookOsiris_storyLoaded (s : OsirisCallbackManager) :
    (s.HookOsiris).storyLoaded = s.storyLoaded := by
  unfold OsirisCallbackManager.HookOsiris
  split <;> rfl

theorem HookOsiris_merging (s : OsirisCallbackManager) :
    (s.HookOsiris).merging = s.merging := by
  unfold OsirisCallbackManager.HookOsiris
  split <;> rfl

theorem Subscribe_subscribers (s : OsirisCallbackManager) (table : SymbolTable)
    (sig : OsirisHookSignature) (h : Nat) :
    (s.Subscribe table sig h).subscribers = s.subscribers ++ [h] := by
  simp only [OsirisCallbackManager.Subscribe, OsirisCallbackManager.RegisterNodeHandler]
  split <;> simp [HookOsiris_subscribers]

theorem Subscribe_nameRefs (s : OsirisCallbackManager) (table : SymbolTable)
    (sig : OsirisHookSignature) (h : Nat) :
    (s.Subscribe table sig h).nameSubscriberRefs
      = s.nameSubscriberRefs ++ [(sig, s.subscribers.length)] := by
  simp only [OsirisCallbackManager.Subscribe, OsirisCallbackManager.RegisterNodeHandler]
  split <;> simp [HookOsiris_nameRefs]

theorem Subscribe_nodeRefs (s : OsirisCallbackManager) (table : SymbolTable)
    (sig : OsirisHookSignature) (h : Nat) :
    (s.Subscribe table sig h).nodeSubscriberRefs
      = s.nodeSubscriberRefs
        ++ (if s.storyLoaded then regEntries table sig s.subscribers.length else []) := by
  simp only [OsirisCallbackManager.Subscribe, OsirisCallbackManager.RegisterNodeHandler]
  split <;> rename_i hs <;> simp_all [HookOsiris_nodeRefs]

theorem Subscribe_storyLoaded (s : OsirisCallbackManager) (table : SymbolTable)
    (sig : OsirisHookSignature) (h : Nat) :
    (s.Subscribe table sig h).storyLoaded = s.storyLoaded := by
  simp only [OsirisCallbackManager.Subscribe, OsirisCallbackManager.RegisterNodeHandler]
  split <;> rename_i hs <;> simp_all [HookOsiris_storyLoaded]

theorem Subscribe_merging (s : OsirisCallbackManager) (table : SymbolTable)
    (sig : OsirisHookSignature) (h : Nat) :
    (s.Subscribe table sig h).merging = s.merging := by
  simp only [OsirisCallbackManager.Subscribe, OsirisCallbackManager.RegisterNodeHandler]
  split <;> simp [HookOsiris_merging]

theorem equalRange_append (a b : List (Nat × Nat)) (k : Nat) :
    equalRange (a ++ b) k = equalRange a k ++ equalRange b k := by
  simp [equalRange, List.filter_append]

theorem mem_equalRange (m : List (Nat × Nat)) (k i : Nat) (hi : i ∈ equalRange m k) :
    ∃ p ∈ m, p.2 = i := by
  simp only [equalRange, List.mem_map, List.mem_filter] at hi
  obtain ⟨p, ⟨hp, _⟩, hv⟩ := hi
  exact ⟨p, hp, hv⟩

/-- C1 counterexample: with the merging flag set and a subscriber registered
on node reference 5, firing through the argument-descriptor overload
RunHandlers(nodeRef, OsiArgumentDesc*) still invokes the handler: that
overload performs no merging-flag check, so the claim that either dispatch
path produces zero handler invocations while merging is false. -/
theorem C1_counterexample :
    mergingMgr.merging = true
    ∧ (mergingMgr.RunHandlersArgs emptyTable noEffects true 5).2 = [0] :=
  ⟨rfl, rfl⟩

/-- C1 (amended): when the merging flag is set, the tuple-list overload
RunHandlers(nodeRef, TuplePtrLL*) produces zero handler invocations and
leaves the state unchanged, with the gate checked before any registry
lookup; the argument-descriptor overload RunHandlers(nodeRef,
OsiArgumentDesc*) has no merging gate, and the handlers it invokes are
unaffected by the value of the merging flag. -/
theorem C1_merging_gate (s : OsirisCallbackManager) (table : SymbolTable)
    (eff : HandlerEffects) (lua : Bool) (nodeRef : Nat) (hm : s.merging = true) :
    s.RunHandlersTuple table eff lua nodeRef = (s, [])
    ∧ ((s.StorySetMerging true).RunHandlersArgs table eff lua nodeRef).2
        = ((s.StorySetMerging false).RunHandlersArgs table eff lua nodeRef).2 := by
  constructor
  · unfold OsirisCallbackManager.RunHandlersTuple
    simp [hm]
  · unfold OsirisCallbackManager.RunHandlersArgs OsirisCallbackManager.RunHandlersCore
      OsirisCallbackManager.StorySetMerging
    simp only
    split
    · rfl
    · split <;> rfl

/-- Witness for C1: the amended statement instantiated at the concrete
merging state. -/
theorem C1_merging_gate_witness :
    mergingMgr.RunHandlersTuple emptyTable noEffects true 5 = (mergingMgr, [])
    ∧ ((mergingMgr.StorySetMerging true).RunHandlersArgs emptyTable noEffects true 5).2
        = ((mergingMgr.StorySetMerging false).RunHandlersArgs emptyTable noEffects true 5).2 :=
  C1_merging_gate mergingMgr emptyTable noEffects true 5 rfl

/-- C4: the embedded runtime stack depth after RunHandler returns equals the
depth before the call on every exit path: successful completion, a
script-level error reported by the protected call (the single error value is
popped), and a native exception escaping the call (everything above the
pre-call depth is popped). -/
theorem C4_runHandler_stack_balanced (numArgs : Nat) (outcome : HandlerOutcome) (depth : Nat) :
    RunHandlerStackDepth numArgs outcome depth = depth := by
  unfold RunHandlerStackDepth
  cases outcome <;> simp <;> omega

/-- C5: the node reference computed by RegisterNodeHandler follows the
phase-bit encoding: event/call symbols use the function id OR-ed with the
before-function bit when the phase is Before and the after-function bit when
the phase is After (other phases resolve to nothing); node-backed symbols
use the node id OR-ed with the after bit exactly when the phase is After or
AfterDelete, and with the delete bit exactly when the phase is BeforeDelete
or AfterDelete. -/
theorem C5_node_ref_encoding (f : OsiFunctionDef) (t : HookType) (nid : Nat) :
    ((f.type = FunctionType.Event ∨ f.type = FunctionType.Call) →
      computeNodeRef f t
        = if t = HookType.BeforeTrigger then some (f.osiFunctionId ||| BeforeFunctionRef)
          else if t = HookType.AfterTrigger then some (f.osiFunctionId ||| AfterFunctionRef)
          else none)
    ∧ (f.type ≠ FunctionType.Event → f.type ≠ FunctionType.Call → f.node = some nid →
      computeNodeRef f t
        = some ((nid
            ||| (if t = HookType.AfterTrigger ∨ t = HookType.AfterDeleteTrigger then
                  AfterTriggerNodeRef else 0))
            ||| (if t = HookType.BeforeDeleteTrigger ∨ t = HookType.AfterDeleteTrigger then
                  DeleteTriggerNodeRef else 0))) := by
  constructor
  · intro hty
    unfold computeNodeRef
    rcases hty with h | h <;> simp [h]
  · intro h1 h2 hn
    unfold computeNodeRef
    cases t <;> simp [h1, h2, hn, Nat.or_zero]

/-- Witness for C5: concrete encodings for an event symbol with a Before
phase and a database symbol with an AfterDelete phase. -/
theorem C5_node_ref_encoding_witness :
    computeNodeRef ⟨FunctionType.Event, 42, none⟩ HookType.BeforeTrigger
      = some (42 ||| BeforeFunctionRef)
    ∧ computeNodeRef ⟨FunctionType.Database, 0, some 7⟩ HookType.AfterDeleteTrigger
      = some ((7 ||| AfterTriggerNodeRef) ||| DeleteTriggerNodeRef) := by
  constructor
  · have h := (C5_node_ref_encoding ⟨FunctionType.Event, 42, none⟩ HookType.BeforeTrigger 0).1
      (Or.inl rfl)
    simpa using h
  · have h := (C5_node_ref_encoding ⟨FunctionType.Database, 0, some 7⟩
      HookType.AfterDeleteTrigger 7).2 (by decide) (by decide) rfl
    simpa using h

/-- C6: Subscribe itself always succeeds: the handler is appended to the
subscriber list and the signature is inserted into the name-based map for
every symbol table, including ones where resolution fails; and requesting a
delete-trigger phase on an event or call symbol leaves the node-based map
unchanged (only a diagnostic is produced) without failing the call. -/
theorem C6_subscribe_always_succeeds (table : SymbolTable) (sig : OsirisHookSignature)
    (h : Nat) (s : OsirisCallbackManager) :
    (s.Subscribe table sig h).subscribers = s.subscribers ++ [h]
    ∧ (s.Subscribe table sig h).nameSubscriberRefs
        = s.nameSubscriberRefs ++ [(sig, s.subscribers.length)]
    ∧ (∀ f, table sig.name sig.arity = some f →
        (f.type = FunctionType.Event ∨ f.type = FunctionType.Call) →
        (sig.type = HookType.BeforeDeleteTrigger ∨ sig.type = HookType.AfterDeleteTrigger) →
        (s.Subscribe table sig h).nodeSubscriberRefs = s.nodeSubscriberRefs) := by
  refine ⟨Subscribe_subscribers .., Subscribe_nameRefs .., ?_⟩
  intro f hf hty hph
  rw [Subscribe_nodeRefs]
  have hreg : regEntries table sig s.subscribers.length = [] := by
    unfold regEntries lookupResolved
    rw [hf]
    rcases hty with h1 | h1 <;> rcases hph with h2 | h2 <;>
      simp [h1, h2, rejectKind, computeNodeRef]
  simp [hreg]

/-- Witness for C6: subscribing a delete-phase handler on the concrete event
symbol appends the handler and name entry but adds no node entry. -/
theorem C6_subscribe_always_succeeds_witness :
    (initMgr.Subscribe tableEv sigEvDel 5).subscribers = [5]
    ∧ (initMgr.Subscribe tableEv sigEvDel 5).nameSubscriberRefs = [(sigEvDel, 0)]
    ∧ (initMgr.Subscribe tableEv sigEvDel 5).nodeSubscriberRefs = [] := by
  have hmain := C6_subscribe_always_succeeds tableEv sigEvDel 5 initMgr
  refine ⟨by simpa [initMgr] using hmain.1, by simpa [initMgr] using hmain.2.1, ?_⟩
  have h := hmain.2.2 ⟨FunctionType.Event, 42, none⟩ (by simp [tableEv, sigEvDel])
    (Or.inl rfl) (Or.inr rfl)
  simpa [initMgr] using h

/-- C7: Exit on the dispatch buffer asserts strict LIFO nesting: after an
Enter, exiting with the returned buffer satisfies the assertion and restores
the pre-Enter depth; an Exit at depth zero, or with any buffer other than
the one most recently entered at depth - 1, violates the assertion. -/
theorem C7_exit_lifo (pcm : PendingCallbackManager) (range : List Nat) (v : Nat) :
    ((pcm.Enter range).1).ExitAssert (pcm.Enter range).2
    ∧ (((pcm.Enter range).1).Exit (pcm.Enter range).2).depth = pcm.depth
    ∧ (pcm.depth = 0 → ¬ pcm.ExitAssert v)
    ∧ (v ≠ pcm.depth - 1 → ¬ pcm.ExitAssert v) := by
  refine ⟨⟨Nat.succ_pos _, rfl⟩, rfl, ?_, ?_⟩
  · intro h0 ha
    exact absurd ha.1 (by omega)
  · intro hv ha
    exact hv ha.2

/-- Witness for C7: a concrete Enter/Exit pair satisfies the assertion, and
a mismatched handle at positive depth violates it. -/
theorem C7_exit_lifo_witness :
    ((⟨[], 0⟩ : PendingCallbackManager).Enter [3, 4]).1.ExitAssert
      ((⟨[], 0⟩ : PendingCallbackManager).Enter [3, 4]).2
    ∧ ¬ (⟨[[3, 4]], 1⟩ : PendingCallbackManager).ExitAssert 5 :=
  ⟨(C7_exit_lifo ⟨[], 0⟩ [3, 4] 5).1,
   (C7_exit_lifo ⟨[[3, 4]], 1⟩ [3, 4] 5).2.2.2 (by decide)⟩

/-- C8: HookOsiris is idempotent through the boolean latch: from an unhooked
state the first call performs exactly one installation, binds the manager as
the callback sink and sets the latch, and calling it again changes nothing. -/
theorem C8_hook_idempotent (s : OsirisCallbackManager) (h : s.osirisHooked = false) :
    (s.HookOsiris).hookInstalls = s.hookInstalls + 1
    ∧ (s.HookOsiris).osirisHooked = true
    ∧ (s.HookOsiris).boundManager = true
    ∧ (s.HookOsiris).HookOsiris = s.HookOsiris := by
  simp [OsirisCallbackManager.HookOsiris, h]

/-- Witness for C8: the idempotence statement at the fresh manager state. -/
theorem C8_hook_idempotent_witness :
    (initMgr.HookOsiris).hookInstalls = initMgr.hookInstalls + 1
    ∧ (initMgr.HookOsiris).osirisHooked = true
    ∧ (initMgr.HookOsiris).boundManager = true
    ∧ (initMgr.HookOsiris).HookOsiris = initMgr.HookOsiris :=
  C8_hook_idempotent initMgr rfl

/-- C9: the post-call hooks for queries and plain function calls dispatch
identically regardless of their succeeded parameter: for any state, symbol
table, handler effects, runtime availability and identity, the resulting
state and invocation list are the same for succeeded = true and false. -/
theorem C9_postHooks_ignore_succeeded (s : OsirisCallbackManager) (table : SymbolTable)
    (eff : HandlerEffects) (lua : Bool) (nodeId functionId : Nat) :
    s.CallQueryPostHook table eff lua nodeId true = s.CallQueryPostHook table eff lua nodeId false
    ∧ s.CallPostHook table eff lua functionId true
        = s.CallPostHook table eff lua functionId false :=
  ⟨rfl, rfl⟩

theorem foldl_preserves_mem {α σ : Type*} (P : σ → Prop) (f : σ → α → σ) (l : List α)
    (hf : ∀ st a, a ∈ l → P st → P (f st a)) (st : σ) (hst : P st) : P (l.foldl f st) := by
  induction l generalizing st with
  | nil => exact hst
  | cons a tl ih =>
    exact ih (fun st2 b hb hP => hf st2 b (List.mem_cons_of_mem _ hb) hP)
      (f st a) (hf st a (List.mem_cons_self _ _) hst)

theorem mem_regEntries (table : SymbolTable) (sig : OsirisHookSignature) (hid : Nat)
    (p : Nat × Nat) (hp : p ∈ regEntries table sig hid) : p.2 = hid := by
  unfold regEntries at hp
  split at hp
  · exact absurd hp (List.not_mem_nil p)
  · split at hp
    · exact absurd hp (List.not_mem_nil p)
    · split at hp
      · exact absurd hp (List.not_mem_nil p)
      · simp at hp
        simp [hp]

theorem Register_subscribers (st : OsirisCallbackManager) (table : SymbolTable)
    (sig : OsirisHookSignature) (hid : Nat) :
    (st.RegisterNodeHandler table sig hid).subscribers = st.subscribers := rfl

theorem Register_nameRefs (st : OsirisCallbackManager) (table : SymbolTable)
    (sig : OsirisHookSignature) (hid : Nat) :
    (st.RegisterNodeHandler table sig hid).nameSubscriberRefs = st.nameSubscriberRefs := rfl

theorem Register_nodeRefs (st : OsirisCallbackManager) (table : SymbolTable)
    (sig : OsirisHookSignature) (hid : Nat) :
    (st.RegisterNodeHandler table sig hid).nodeSubscriberRefs
      = st.nodeSubscriberRefs ++ regEntries table sig hid := rfl

theorem extendsFrom_refl (s : OsirisCallbackManager) : ExtendsFrom s s :=
  ⟨Nat.le_refl _, rfl, rfl, [], by simp, by simp⟩

theorem extendsFrom_subscribe (s st : OsirisCallbackManager) (table : SymbolTable)
    (sig : OsirisHookSignature) (h : Nat) (hex : ExtendsFrom s st) :
    ExtendsFrom s (st.Subscribe table sig h) := by
  obtain ⟨hlen, hm, hsl, t, hnode, ht⟩ := hex
  refine ⟨?_, ?_, ?_, ?_⟩
  · rw [Subscribe_subscribers]
    simp only [List.length_append, List.length_cons, List.length_nil]
    omega
  · rw [Subscribe_merging]
    exact hm
  · rw [Subscribe_storyLoaded]
    exact hsl
  · refine ⟨t ++ (if st.storyLoaded then regEntries table sig st.subscribers.length else []),
      ?_, ?_⟩
    · rw [Subscribe_nodeRefs, hnode, List.append_assoc]
    · intro p hp
      rcases List.mem_append.mp hp with h1 | h1
      · exact ht p h1
      · by_cases hb : st.storyLoaded = true
        · rw [if_pos hb] at h1
          have h2 := mem_regEntries table sig st.subscribers.length p h1
          omega
        · rw [if_neg hb] at h1
          exact absurd h1 (List.not_mem_nil p)

theorem extendsFrom_invokeEffects (s st : OsirisCallbackManager) (table : SymbolTable)
    (eff : HandlerEffects) (idx : Nat) (hex : ExtendsFrom s st) :
    ExtendsFrom s (invokeEffects table eff st idx) := by
  unfold invokeEffects
  exact foldl_preserves_mem (ExtendsFrom s) (fun st2 p => st2.Subscribe table p.1 p.2) (eff idx)
    (fun st2 p _ hP => extendsFrom_subscribe s st2 table p.1 p.2 hP) st hex

theorem RunHandlersCore_snd (s : OsirisCallbackManager) (table : SymbolTable)
    (eff : HandlerEffects) (r : Nat) :
    (s.RunHandlersCore table eff true r).2 = equalRange s.nodeSubscriberRefs r := by
  unfold OsirisCallbackManager.RunHandlersCore
  simp only
  split
  · rename_i hemp
    rw [List.isEmpty_iff] at hemp
    exact hemp.symm
  · rfl

theorem RunHandlersTuple_snd (s : OsirisCallbackManager) (table : SymbolTable)
    (eff : HandlerEffects) (r : Nat) (hm : s.merging = false) :
    (s.RunHandlersTuple table eff true r).2 = equalRange s.nodeSubscriberRefs r := by
  unfold OsirisCallbackManager.RunHandlersTuple
  rw [hm]
  simp only [Bool.false_eq_true, if_false]
  exact RunHandlersCore_snd s table eff r

theorem RunHandlersCore_extends (s : OsirisCallbackManager) (table : SymbolTable)
    (eff : HandlerEffects) (lua : Bool) (r : Nat) :
    ExtendsFrom s (s.RunHandlersCore table eff lua r).1 := by
  unfold OsirisCallbackManager.RunHandlersCore
  simp only
  split
  · exact extendsFrom_refl s
  · split
    · exact foldl_preserves_mem (ExtendsFrom s) (fun st idx => invokeEffects table eff st idx)
        (equalRange s.nodeSubscriberRefs r)
        (fun st2 a _ hP => extendsFrom_invokeEffects s st2 table eff a hP)
        _ (extendsFrom_refl s)
    · exact extendsFrom_refl s

theorem RunHandlersTuple_extends (s : OsirisCallbackManager) (table : SymbolTable)
    (eff : HandlerEffects) (lua : Bool) (r : Nat) :
    ExtendsFrom s (s.RunHandlersTuple table eff lua r).1 := by
  unfold OsirisCallbackManager.RunHandlersTuple
  split
  · exact extendsFrom_refl s
  · exact RunHandlersCore_extends s table eff lua r

/-- C2: subscribing handlers H1, H2, H3 in that order to the same resolvable
signature, then firing the computed node reference once, invokes exactly the
three new handler indices in subscription order, and those indices map to
H1, H2, H3 in the subscriber list. -/
theorem C2_dispatch_order (table : SymbolTable) (eff : HandlerEffects)
    (s : OsirisCallbackManager) (sig : OsirisHookSignature) (h1 h2 h3 : Nat)
    (f : OsiFunctionDef) (r : Nat)
    (hres : lookupResolved table sig = some f)
    (hrej : rejectKind f = false)
    (href : computeNodeRef f sig.type = some r)
    (hload : s.storyLoaded = true)
    (hmerge : s.merging = false)
    (hempty : equalRange s.nodeSubscriberRefs r = []) :
    ((((s.Subscribe table sig h1).Subscribe table sig h2).Subscribe table sig h3).RunHandlersTuple
        table eff true r).2
      = [s.subscribers.length, s.subscribers.length + 1, s.subscribers.length + 2]
    ∧ (((s.Subscribe table sig h1).Subscribe table sig h2).Subscribe table sig h3).subscribers.drop
        s.subscribers.length = [h1, h2, h3] := by
  have hreg : ∀ idx, regEntries table sig idx = [(r, idx)] := by
    intro idx
    unfold regEntries
    rw [hres]
    simp [hrej, href]
  have key : ∀ (st : OsirisCallbackManager) (h : Nat), st.storyLoaded = true →
      (st.Subscribe table sig h).nodeSubscriberRefs
        = st.nodeSubscriberRefs ++ [(r, st.subscribers.length)]
      ∧ (st.Subscribe table sig h).subscribers = st.subscribers ++ [h]
      ∧ (st.Subscribe table sig h).storyLoaded = true
      ∧ (st.Subscribe table sig h).merging = st.merging := by
    intro st h hld
    refine ⟨?_, Subscribe_subscribers .., ?_, Subscribe_merging ..⟩
    · rw [Subscribe_nodeRefs, hld]
      simp [hreg]
    · rw [Subscribe_storyLoaded]
      exact hld
  obtain ⟨hn1, hs1, hl1, hm1⟩ := key s h1 hload
  obtain ⟨hn2, hs2, hl2, hm2⟩ := key _ h2 hl1
  obtain ⟨hn3, hs3, hl3, hm3⟩ := key _ h3 hl2
  have e1 : (s.Subscribe table sig h1).subscribers.length = s.subscribers.length + 1 := by
    rw [hs1]
    simp
  have e2 : ((s.Subscribe table sig h1).Subscribe table sig h2).subscribers.length
      = s.subscribers.length + 2 := by
    rw [hs2, List.length_append, e1]
    rfl
  have hm3' : (((s.Subscribe table sig h1).Subscribe table sig h2).Subscribe
      table sig h3).merging = false := by
    rw [hm3, hm2, hm1, hmerge]
  constructor
  · rw [RunHandlersTuple_snd _ table eff r hm3', hn3, hn2, hn1, e1, e2,
      equalRange_append, equalRange_append, equalRange_append, hempty]
    simp [equalRange]
  · rw [hs3, hs2, hs1, List.append_assoc, List.append_assoc, List.drop_left]
    rfl

/-- Witness for C2: three handlers subscribed to the concrete event symbol
fire in subscription order. -/
theorem C2_dispatch_order_witness :
    ((((loadedMgr.Subscribe tableEv sigEvBefore 10).Subscribe tableEv sigEvBefore
        11).Subscribe tableEv sigEvBefore 12).RunHandlersTuple tableEv noEffects true
        (42 ||| BeforeFunctionRef)).2 = [0, 1, 2]
    ∧ (((loadedMgr.Subscribe tableEv sigEvBefore 10).Subscribe tableEv sigEvBefore
        11).Subscribe tableEv sigEvBefore 12).subscribers.drop 0 = [10, 11, 12] := by
  have h := C2_dispatch_order tableEv noEffects loadedMgr sigEvBefore 10 11 12
    ⟨FunctionType.Event, 42, none⟩ (42 ||| BeforeFunctionRef)
    (by decide) (by decide) (by decide) (by decide) (by decide) (by decide)
  simpa using h

/-- C3: for every firing, handlers invoked during the firing see exactly the
entry snapshot: the invocation list is precisely the subscriber range
captured at entry (no handler skipped or invoked twice, in order); every
invoked index refers to a handler that existed at entry; the node-based map
after the firing still starts with its pre-firing entries; every
subscription added during the firing refers to a handler appended after
entry and is therefore not invoked in this firing; and an immediately
following firing of the same node reference invokes the old snapshot
followed by the newly added matching subscriptions. -/
theorem C3_reentrancy_snapshot (table : SymbolTable) (eff : HandlerEffects)
    (s : OsirisCallbackManager) (r : Nat) (hm : s.merging = false) (hv : validIndices s) :
    (s.RunHandlersTuple table eff true r).2 = equalRange s.nodeSubscriberRefs r
    ∧ (∀ i ∈ (s.RunHandlersTuple table eff true r).2, i < s.subscribers.length)
    ∧ ((s.RunHandlersTuple table eff true r).1.nodeSubscriberRefs).take
        s.nodeSubscriberRefs.length = s.nodeSubscriberRefs
    ∧ (∀ p ∈ ((s.RunHandlersTuple table eff true r).1.nodeSubscriberRefs).drop
          s.nodeSubscriberRefs.length,
        p.2 ∉ (s.RunHandlersTuple table eff true r).2)
    ∧ ((s.RunHandlersTuple table eff true r).1.RunHandlersTuple table eff true r).2
        = (s.RunHandlersTuple table eff true r).2
          ++ equalRange (((s.RunHandlersTuple table eff true r).1.nodeSubscriberRefs).drop
              s.nodeSubscriberRefs.length) r := by
  obtain ⟨hlen, hmg, hsl, t, hnode, ht⟩ := RunHandlersTuple_extends s table eff true r
  have hsnd := RunHandlersTuple_snd s table eff r hm
  have hinv : ∀ i ∈ (s.RunHandlersTuple table eff true r).2, i < s.subscribers.length := by
    intro i hi
    rw [hsnd] at hi
    obtain ⟨p, hp, hpv⟩ := mem_equalRange _ _ _ hi
    have h2 := hv.2 p hp
    omega
  have hdrop : ((s.RunHandlersTuple table eff true r).1.nodeSubscriberRefs).drop
      s.nodeSubscriberRefs.length = t := by
    rw [hnode, List.drop_left]
  refine ⟨hsnd, hinv, ?_, ?_, ?_⟩
  · rw [hnode, List.take_left]
  · intro p hp hmem
    rw [hdrop] at hp
    have h1 := ht p hp
    have h2 := hinv p.2 hmem
    omega
  · have hm2 : (s.RunHandlersTuple table eff true r).1.merging = false := by
      rw [hmg, hm]
    rw [RunHandlersTuple_snd _ table eff r hm2, hdrop, hnode, equalRange_append, hsnd]

theorem validIndices_subscribe (table : SymbolTable) (sig : OsirisHookSignature) (h : Nat)
    (s : OsirisCallbackManager) (hv : validIndices s) :
    validIndices (s.Subscribe table sig h) := by
  obtain ⟨hn, hd⟩ := hv
  constructor
  · intro p hp
    rw [Subscribe_nameRefs] at hp
    rw [Subscribe_subscribers]
    simp only [List.length_append, List.length_cons, List.length_nil]
    rcases List.mem_append.mp hp with h1 | h1
    · have h2 := hn p h1
      omega
    · simp at h1
      rw [h1]
      omega
  · intro p hp
    rw [Subscribe_nodeRefs] at hp
    rw [Subscribe_subscribers]
    simp only [List.length_append, List.length_cons, List.length_nil]
    rcases List.mem_append.mp hp with h1 | h1
    · have h2 := hd p h1
      omega
    · by_cases hb : s.storyLoaded = true
      · rw [if_pos hb] at h1
        have h2 := mem_regEntries table sig s.subscribers.length p h1
        omega
      · rw [if_neg hb] at h1
        exact absurd h1 (List.not_mem_nil p)

theorem validIndices_register (st : OsirisCallbackManager) (table : SymbolTable)
    (sig : OsirisHookSignature) (hid : Nat) (hv : validIndices st)
    (hh : hid < st.subscribers.length) :
    validIndices (st.RegisterNodeHandler table sig hid) := by
  obtain ⟨hn, hd⟩ := hv
  constructor
  · intro p hp
    rw [Register_nameRefs] at hp
    rw [Register_subscribers]
    exact hn p hp
  · intro p hp
    rw [Register_nodeRefs] at hp
    rw [Register_subscribers]
    rcases List.mem_append.mp hp with h1 | h1
    · exact hd p h1
    · rw [mem_regEntries table sig hid p h1]
      exact hh

theorem validIndices_storyLoaded (table : SymbolTable) (s : OsirisCallbackManager)
    (hv : validIndices s) : validIndices (s.StoryLoaded table) := by
  unfold OsirisCallbackManager.StoryLoaded
  simp only
  refine (foldl_preserves_mem
      (fun st => st.subscribers = s.subscribers ∧ st.nameSubscriberRefs = s.nameSubscriberRefs
        ∧ validIndices st)
      _ _ ?_ _ ?_).2.2
  · intro st a ha hP
    obtain ⟨h1, h2, h3⟩ := hP
    rw [HookOsiris_nameRefs] at ha
    refine ⟨h1, h2, validIndices_register st table a.1 a.2 h3 ?_⟩
    rw [h1]
    exact hv.1 a ha
  · refine ⟨HookOsiris_subscribers s, HookOsiris_nameRefs s, ?_, ?_⟩
    · intro p hp
      show p.2 < (s.HookOsiris).subscribers.length
      rw [HookOsiris_subscribers]
      have hp2 : p ∈ (s.HookOsiris).nameSubscriberRefs := hp
      rw [HookOsiris_nameRefs] at hp2
      exact hv.1 p hp2
    · intro p hp
      exact absurd hp (List.not_mem_nil p)

/-- C10: every handler index stored in the name-based or node-based map is a
valid index into the append-only subscriber list: the invariant is preserved
by Subscribe and by the full StoryLoaded re-registration, and every index in
any dispatch range is in bounds, so subscribers_[index] during dispatch
never goes out of bounds. -/
theorem C10_subscriber_indices (table : SymbolTable) (sig : OsirisHookSignature) (h : Nat)
    (s : OsirisCallbackManager) (hv : validIndices s) :
    validIndices (s.Subscribe table sig h)
    ∧ validIndices (s.StoryLoaded table)
    ∧ (∀ r, ∀ i ∈ equalRange s.nodeSubscriberRefs r, i < s.subscribers.length) := by
  refine ⟨validIndices_subscribe table sig h s hv, validIndices_storyLoaded table s hv, ?_⟩
  intro r i hi
  obtain ⟨p, hp, hpv⟩ := mem_equalRange _ _ _ hi
  have h2 := hv.2 p hp
  omega

/-- Witness for C10: the invariant statement at the concrete merging state,
whose maps hold one valid index. -/
theorem C10_subscriber_indices_witness :
    validIndices (mergingMgr.Subscribe tableEv sigEvDel 5)
    ∧ validIndices (mergingMgr.StoryLoaded tableEv)
    ∧ (∀ r, ∀ i ∈ equalRange mergingMgr.nodeSubscriberRefs r,
        i < mergingMgr.subscribers.length) :=
  C10_subscriber_indices tableEv sigEvDel 5 mergingMgr (by decide)

/-- Witness for C3: a reentrant firing at the concrete one-subscriber state,
whose single handler subscribes a new handler on the same signature. -/
theorem C3_reentrancy_snapshot_witness :
    (oneSubMgr.RunHandlersTuple tableEv reentrantEff true (42 ||| BeforeFunctionRef)).2
      = equalRange oneSubMgr.nodeSubscriberRefs (42 ||| BeforeFunctionRef)
    ∧ (∀ i ∈ (oneSubMgr.RunHandlersTuple tableEv reentrantEff true (42 ||| BeforeFunctionRef)).2,
        i < oneSubMgr.subscribers.length)
    ∧ ((oneSubMgr.RunHandlersTuple tableEv reentrantEff true
          (42 ||| BeforeFunctionRef)).1.nodeSubscriberRefs).take
        oneSubMgr.nodeSubscriberRefs.length = oneSubMgr.nodeSubscriberRefs
    ∧ (∀ p ∈ ((oneSubMgr.RunHandlersTuple tableEv reentrantEff true
          (42 ||| BeforeFunctionRef)).1.nodeSubscriberRefs).drop
          oneSubMgr.nodeSubscriberRefs.length,
        p.2 ∉ (oneSubMgr.RunHandlersTuple tableEv reentrantEff true
          (42 ||| BeforeFunctionRef)).2)
    ∧ ((oneSubMgr.RunHandlersTuple tableEv reentrantEff true
          (42 ||| BeforeFunctionRef)).1.RunHandlersTuple tableEv reentrantEff true
          (42 ||| BeforeFunctionRef)).2
        = (oneSubMgr.RunHandlersTuple tableEv reentrantEff true (42 ||| BeforeFunctionRef)).2
          ++ equalRange (((oneSubMgr.RunHandlersTuple tableEv reentrantEff true
              (42 ||| BeforeFunctionRef)).1.nodeSubscriberRefs).drop
              oneSubMgr.nodeSubscriberRefs.length) (42 ||| BeforeFunctionRef) :=
  C3_reentrancy_snapshot tableEv reentrantEff oneSubMgr (42 ||| BeforeFunctionRef)
    (by decide) (by decide)

end OsiBridge
